import Mathlib

/-!
Verification of the skill-survey application (src/streamlit_app.py).

The JSON document manipulated by the application is modelled shallowly:
Python dictionaries become insertion-ordered association lists over `String`
keys, the three optional top-level keys of the persisted document become
`Option`-typed fields of a `Doc` structure (a `none` field models an absent
key), and the pure helper functions of the source are translated one by one.
-/

set_option autoImplicit false

namespace SkillSurvey

/-! ### Association-list model of a Python dict (insertion ordered) -/

/-- `d.get(k)` / `k in d`: first (and, for a dict, only) binding of key `k`. -/
def lookupA {α : Type} : List (String × α) → String → Option α
  | [], _ => none
  | (k, v) :: rest, s => if s = k then some v else lookupA rest s

/-- `d[k] = v` on a dict: overwrite in place if the key exists, else append. -/
def insertA {α : Type} : List (String × α) → String → α → List (String × α)
  | [], k, v => [(k, v)]
  | (k0, v0) :: rest, k, v =>
      if k0 = k then (k, v) :: rest else (k0, v0) :: insertA rest k v

/-- `d.pop(k, None)`: drop every binding of key `k` (a dict has at most one). -/
def eraseA {α : Type} (m : List (String × α)) (k : String) : List (String × α) :=
  m.filter (fun p => p.1 ≠ k)

/-! ### String helpers modelling Python string operations -/

/-- Whether `needle` is an initial segment of `hay` (over character lists). -/
def charsHasPre : List Char → List Char → Bool
  | [], _ => true
  | _ :: _, [] => false
  | a :: as, b :: bs => a = b && charsHasPre as bs

/-- Whether `needle` occurs contiguously inside `hay` (over character lists). -/
def charsHasSub (needle : List Char) : List Char → Bool
  | [] => needle.isEmpty
  | c :: rest => charsHasPre needle (c :: rest) || charsHasSub needle rest

/-- Python `needle in hay` on strings: contiguous-substring containment. -/
def strContains (hay needle : String) : Bool :=
  charsHasSub needle.data hay.data

/-- Python `s.lower()` (ASCII fragment). -/
def pyLower (s : String) : String :=
  String.mk (s.data.map Char.toLower)

/-- Python `str.splitlines`, restricted to the line boundaries
LF, CRLF and CR (no trailing empty line). -/
def pySplitLinesAux : List Char → List Char → List String
  | [], acc => if acc.isEmpty then [] else [String.mk acc.reverse]
  | '\r' :: '\n' :: rest, acc => String.mk acc.reverse :: pySplitLinesAux rest []
  | '\r' :: rest, acc => String.mk acc.reverse :: pySplitLinesAux rest []
  | '\n' :: rest, acc => String.mk acc.reverse :: pySplitLinesAux rest []
  | c :: rest, acc => pySplitLinesAux rest (c :: acc)

/-- `text.splitlines()`. -/
def pySplitLines (text : String) : List String :=
  pySplitLinesAux text.data []

/-- The remainder of a line after its first colon: `ln.split(":", 1)[1]`.
`none` models the `IndexError` raised when the line has no colon (unreachable
on the call site, which is guarded by a "skills:" substring test). -/
def afterFirstColon : List Char → Option (List Char)
  | [] => none
  | ':' :: rest => some rest
  | _ :: rest => afterFirstColon rest

/-- Python `parts.split(",")`: split on every comma, keeping empty pieces. -/
def splitCommaAux : List Char → List Char → List String
  | [], acc => [String.mk acc.reverse]
  | c :: rest, acc =>
      if c = ',' then String.mk acc.reverse :: splitCommaAux rest []
      else splitCommaAux rest (c :: acc)

/-- `parts.split(",")` on a string. -/
def splitComma (parts : List Char) : List String :=
  splitCommaAux parts []

/-- Python `text.split()` with no separator: split on whitespace runs,
dropping empty pieces. -/
def splitWSAux : List Char → List Char → List String
  | [], acc => if acc.isEmpty then [] else [String.mk acc.reverse]
  | c :: rest, acc =>
      if c.isWhitespace then
        if acc.isEmpty then splitWSAux rest []
        else String.mk acc.reverse :: splitWSAux rest []
      else splitWSAux rest (c :: acc)

/-- `text.split()`. -/
def pySplitWS (text : String) : List String :=
  splitWSAux text.data []

/-- Python `str.istitle` (ASCII fragment): cased characters form runs that
start with an uppercase letter followed by lowercase letters, and at least one
cased character occurs. -/
def istitleAux : List Char → Bool → Bool → Bool
  | [], _, found => found
  | c :: rest, prevCased, found =>
      if c.isUpper then
        if prevCased then false else istitleAux rest true true
      else if c.isLower then
        if prevCased then istitleAux rest true true else false
      else istitleAux rest false found

/-- `w.istitle()`. -/
def pyIstitle (w : String) : Bool :=
  istitleAux w.data false false

/-- Characters stripped by `.strip(",.()")`. -/
def isPunctToStrip (c : Char) : Bool :=
  c = ',' || c = '.' || c = '(' || c = ')'

/-- Python `s.strip(chars)`: drop characters satisfying `p` from both ends. -/
def pyStrip (p : Char → Bool) (s : String) : String :=
  String.mk (((s.data.dropWhile p).reverse.dropWhile p).reverse)

/-- Python `s.strip()` with no argument: strip whitespace. -/
def pyStripWS (s : String) : String :=
  pyStrip Char.isWhitespace s

/-- Python `set.add` modelled on a duplicate-free list: insertion order is
kept as a canonical stand-in for the unspecified iteration order of a CPython
set. -/
def insertUnique (l : List String) (x : String) : List String :=
  if x ∈ l then l else l ++ [x]

/-! ### Record types of the data model -/

/-- A survey record, as assembled by the admin create handler. -/
structure Survey where
  survey_id : String
  process : String
  process_id : Option Int
  skills : List String
  questions : List String
  creator : String
deriving DecidableEq, Repr

/-- One submitted response, as assembled by the user submit handler. -/
structure Response where
  respondent_email : String
  respondent_name : String
  skills_selected : List String
  skill_ratings : List (String × String)
  answers : List (String × String)
  comments : String
  timestamp : String
deriving DecidableEq, Repr

/-- The persisted JSON document. A field holding `none` models a document in
which that top-level key is absent; `some m` models the key bound to map `m`. -/
structure Doc where
  surveys : Option (List (String × Survey))
  responses : Option (List (String × List Response))
  assignments : Option (List (String × List String))
deriving DecidableEq, Repr

/-! ### Datastore helpers (`load_datafile`, `ensure_data_structure`) -/

/-- State of the backing `data.json` file as seen by `load_datafile`. -/
inductive DataFileState where
  | missing
  | unparsable
  | parsed (d : Doc)
deriving DecidableEq, Repr

/-- The empty Python dict `\x7b\x7d` returned on both failure paths of
`load_datafile`: none of the three top-level keys is present. -/
def emptyRawDoc : Doc := { surveys := none, responses := none, assignments := none }

/-- `load_datafile`: returns the parsed document when the file exists and
parses, and the empty dict `\x7b\x7d` when the file is absent or `json.load`
raises. -/
def load_datafile : DataFileState → Doc
  | .parsed d => d
  | .missing => emptyRawDoc
  | .unparsable => emptyRawDoc

/-- `ensure_data_structure`, applied to the loaded document: adds each of the
three top-level keys as an empty map when absent, and calls `save_datafile`
once if anything changed. The second component counts the save calls. -/
def ensure_data_structure (d : Doc) : Doc × Nat :=
  let c1 := d.surveys.isNone
  let d1 : Doc := if c1 then { d with surveys := some [] } else d
  let c2 := d1.responses.isNone
  let d2 : Doc := if c2 then { d1 with responses := some [] } else d1
  let c3 := d2.assignments.isNone
  let d3 : Doc := if c3 then { d2 with assignments := some [] } else d2
  (d3, if c1 || c2 || c3 then 1 else 0)

/-! ### Survey id generation and skill suggestion -/

/-- `generate_survey_id`: `str(uuid.uuid4())[:8]`, modelled on the rendered
UUID string drawn by the caller. -/
def generate_survey_id (uuidStr : String) : String :=
  String.mk (uuidStr.data.take 8)

/-- The static process-to-skills suggestion table, in dict-literal order. -/
def suggestionTable : List (String × List String) :=
  [("Order to Cash", ["Order Processing", "Invoicing", "Accounts Receivable", "SAP"]),
   ("Procure to Pay", ["Procurement", "Supplier Management", "PO Processing", "SAP"]),
   ("Hire to Retire", ["Recruitment", "Payroll", "Onboarding", "Employee Relations"]),
   ("Record to Report", ["Financial Reporting", "Reconcilations", "Excel", "Accounting"]),
   ("Incident Management", ["Incident Triage", "Troubleshooting", "Ticketing Systems"]),
   ("Inventory Management", ["Stock Control", "Cycle Count", "ERP", "Logistics"]),
   ("Data Migration", ["ETL", "Data Mapping", "SQL", "Python"]),
   ("Network Security", ["Firewalls", "IDS/IPS", "Vulnerability Management"]),
   ("Event Management", ["Venue Management", "Vendor Coordination", "Logistics"])]

/-- The generic fallback skill list. -/
def genericSkills : List String :=
  ["Communication", "Process Knowledge", "Documentation", "Tools"]

/-- The `for k, v in mapping.items()` loop with early `return v`. -/
def suggestLoop (process_name : String) : List (String × List String) → List String
  | [] => genericSkills
  | (k, v) :: rest =>
      if strContains (pyLower process_name) (pyLower k) then v
      else suggestLoop process_name rest

/-- `suggest_skills_for_process`. -/
def suggest_skills_for_process (process_name : String) : List String :=
  suggestLoop process_name suggestionTable

/-! ### Skill extraction from resume text -/

/-- The body of the declared-skills branch: split the line after its first
colon on commas, strip whitespace, drop empties. -/
def declaredSkills (ln : String) : List String :=
  let parts := (afterFirstColon ln.data).getD []
  (splitComma parts).filterMap
    (fun s => if pyStripWS s = "" then none else some (pyStripWS s))

/-- The heuristic fallback of `extract_skills_from_text`: title-cased tokens
of length strictly between 2 and 20, stripped of `,.()`, deduplicated, first
eight kept. -/
def fallbackTokens (text : String) : List String :=
  let words := pySplitWS text
  let tokens := words.foldl
    (fun acc w =>
      if pyIstitle w && decide (2 < w.data.length) && decide (w.data.length < 20) then
        insertUnique acc (pyStrip isPunctToStrip (pyStripWS w))
      else acc) []
  tokens.take 8

/-- `extract_skills_from_text`: the first line containing `"skills:"`
(case-insensitively) wins, else the heuristic fallback. -/
def extract_skills_from_text (text : String) : List String :=
  match (pySplitLines text).find? (fun ln => strContains (pyLower ln) "skills:") with
  | some ln => declaredSkills ln
  | none => fallbackTokens text

/-! ### Resume matching -/

/-- `match_resumes_for_skill`: the file names of resumes whose text contains
the skill as a case-insensitive substring, in dict order. -/
def match_resumes_for_skill (skill : String) (resumes : List (String × String)) :
    List String :=
  (resumes.filter (fun p => strContains (pyLower p.2) (pyLower skill))).map Prod.fst

/-- Dashboard fallback for one missing skill: resumes whose extracted,
lower-cased token list contains the skill. -/
def fallbackSuggestions (ms : String) (resumes : List (String × String)) :
    List String :=
  (resumes.filter
    (fun p => ms ∈ (extract_skills_from_text p.2).map pyLower)).map Prod.fst

/-- The dashboard resume-matching block for one missing skill: the direct
matches, and the fallback suggestions exactly when no direct match exists
(`none` records that the fallback branch was never entered). -/
def resumeMatchingForSkill (ms : String) (resumes : List (String × String)) :
    List String × Option (List String) :=
  let direct := match_resumes_for_skill ms resumes
  if direct.isEmpty then (direct, some (fallbackSuggestions ms resumes))
  else (direct, none)

/-! ### Dashboard skill aggregation -/

/-- `r.get("skill_ratings", \x7b\x7d).get(skl, "Low")`. -/
def ratingOf (r : Response) (skl : String) : String :=
  (lookupA r.skill_ratings skl).getD "Low"

/-- `skill_map.setdefault(skl, []).append(rating)`: append to the list of an
existing key in place, else add the key at the end. -/
def skillMapAdd : List (String × List String) → String → String → List (String × List String)
  | [], k, v => [(k, [v])]
  | (k0, l) :: rest, k, v =>
      if k0 = k then (k0, l ++ [v]) :: rest
      else (k0, l) :: skillMapAdd rest k v

/-- The aggregation loop over the response list. -/
def skill_map (resp_list : List Response) : List (String × List String) :=
  resp_list.foldl
    (fun m r =>
      r.skills_selected.foldl (fun m skl => skillMapAdd m skl (ratingOf r skl)) m)
    []

/-- One row of the aggregation table. -/
structure AggRow where
  skill : String
  high : Nat
  medium : Nat
  low : Nat
  total : Nat
deriving DecidableEq, Repr

/-- The rows built from `skill_map`: per-skill counts of the three rating
values and the total number of recorded ratings. -/
def agg_rows (m : List (String × List String)) : List AggRow :=
  m.map (fun p =>
    { skill := p.1, high := p.2.count "High", medium := p.2.count "Medium",
      low := p.2.count "Low", total := p.2.length })

/-! ### Gap analysis -/

/-- `set([s.lower() for s in survey.get("skills", [])])`. -/
def requiredSkills (survey : Survey) : Finset String :=
  (survey.skills.map pyLower).toFinset

/-- `set([s.lower() for s in skill_map.keys()])`. -/
def availableSkills (resp_list : List Response) : Finset String :=
  ((skill_map resp_list).map (fun p => pyLower p.1)).toFinset

/-- `missing = required - available`. -/
def missingSkills (survey : Survey) (resp_list : List Response) : Finset String :=
  requiredSkills survey \ availableSkills resp_list

/-- `list(missing)` on a CPython set enumerates it in an unspecified,
hash-seed-dependent order: a faithful model constrains the result only to be
a duplicate-free list of exactly the elements of the set. -/
def IsSetEnumeration (s : Finset String) (l : List String) : Prop :=
  l.Nodup ∧ l.toFinset = s

/-! ### Admin create and delete handlers -/

/-- The write portion of the Create and Save Survey handler:
`data.setdefault("surveys", \x7b\x7d)[sid] = survey` and
`data.setdefault("assignments", \x7b\x7d)[sid] = selected_emails`. -/
def createSurvey (d : Doc) (sid : String) (survey : Survey)
    (selected_emails : List String) : Doc :=
  { d with
    surveys := some (insertA (d.surveys.getD []) sid survey),
    assignments := some (insertA (d.assignments.getD []) sid selected_emails) }

/-- The delete-survey handler: `d["surveys"].pop(sid, None)` (a `KeyError`,
modelled as `none`, if the surveys key is absent), then
`d.get("assignments", \x7b\x7d).pop(sid, None)` and
`d.get("responses", \x7b\x7d).pop(sid, None)`, which leave an absent key
absent. -/
def deleteSurvey (d : Doc) (sid : String) : Option Doc :=
  match d.surveys with
  | none => none
  | some sm =>
      some { surveys := some (eraseA sm sid),
             responses := d.responses.map (fun m => eraseA m sid),
             assignments := d.assignments.map (fun m => eraseA m sid) }

/-- The ratings the loop records for skill `s`: one entry per occurrence of
`s` in a response's selected list, each being the rating-map entry for `s`
with default `"Low"`. This definition follows the wording of the spec and is
related to `skill_map` by `lookupA_skill_map` below. -/
def ratingsSpec (rs : List Response) (s : String) : List String :=
  rs.flatMap (fun r => List.replicate (r.skills_selected.count s) (ratingOf r s))

/-- The rating values counted by the three buckets of an aggregation row. -/
def goodRating (x : String) : Bool :=
  x = "High" || x = "Medium" || x = "Low"

/-! ### Concrete example data used by witnesses and counterexamples -/

/-- A fully structurally complete empty document. -/
def completeEmptyDoc : Doc :=
  { surveys := some [], responses := some [], assignments := some [] }

/-- Example survey over SQL and ETL, as in the gap-analysis example of the
spec. -/
def surveySqlEtl : Survey :=
  { survey_id := "s1", process := "Data Migration", process_id := some 7,
    skills := ["SQL", "ETL"], questions := ["How confident are you?"],
    creator := "admin" }

/-- A second survey record, with different content. -/
def surveyOther : Survey :=
  { survey_id := "s2", process := "Order to Cash", process_id := none,
    skills := ["SAP"], questions := [], creator := "admin" }

/-- One response selecting only SQL and rating it High. -/
def respSqlHigh : Response :=
  { respondent_email := "a@x.com", respondent_name := "A",
    skills_selected := ["SQL"], skill_ratings := [("SQL", "High")],
    answers := [("q1", "yes")], comments := "", timestamp := "t1" }

/-- A hand-edited response whose selected list repeats the same skill and
whose rating map is empty. -/
def respDupX : Response :=
  { respondent_email := "b@x.com", respondent_name := "B",
    skills_selected := ["X", "X"], skill_ratings := [],
    answers := [], comments := "", timestamp := "t2" }

/-- A document holding two surveys with responses and assignments. -/
def docTwoSurveys : Doc :=
  { surveys := some [("s1", surveySqlEtl), ("s2", surveyOther)],
    responses := some [("s1", [respSqlHigh]), ("s2", [])],
    assignments := some [("s1", ["a@x.com"]), ("s2", ["b@x.com"])] }

/-! ### Lemmas about the association-list dict model -/

theorem lookupA_insertA {α : Type} (m : List (String × α)) (k : String) (v : α)
    (s : String) :
    lookupA (insertA m k v) s = if s = k then some v else lookupA m s := by
  induction m with
  | nil => simp [insertA, lookupA]
  | cons p rest ih =>
      obtain ⟨k0, v0⟩ := p
      by_cases hk : k0 = k
      · subst hk
        by_cases hs : s = k0 <;> simp [insertA, lookupA, hs]
      · by_cases hs : s = k0
        · subst hs
          simp [insertA, lookupA, hk, Ne.symm hk]
        · simp [insertA, lookupA, hk, hs, ih]

theorem lookupA_eraseA {α : Type} (m : List (String × α)) (k s : String) :
    lookupA (eraseA m k) s = if s = k then none else lookupA m s := by
  induction m with
  | nil => simp [eraseA, lookupA]
  | cons p rest ih =>
      obtain ⟨k0, v0⟩ := p
      by_cases hk : k0 = k
      · subst hk
        by_cases hs : s = k0 <;> simp_all [eraseA, lookupA]
      · by_cases hs : s = k0
        · subst hs
          simp_all [eraseA, lookupA, hk]
        · simp_all [eraseA, lookupA, hk, hs]

/-! ### Lemmas about substring containment -/

theorem charsHasPre_iff (n : List Char) :
    ∀ h : List Char, charsHasPre n h = true ↔ ∃ t, n ++ t = h := by
  induction n with
  | nil => intro h; simp [charsHasPre]
  | cons a as ih =>
      intro h
      cases h with
      | nil => simp [charsHasPre]
      | cons b bs =>
          simp only [charsHasPre, Bool.and_eq_true, decide_eq_true_eq, ih bs]
          constructor
          · rintro ⟨rfl, t, rfl⟩; exact ⟨t, rfl⟩
          · rintro ⟨t, ht⟩
            injection ht with h1 h2
            exact ⟨h1, t, h2⟩

theorem charsHasSub_iff (n : List Char) :
    ∀ h : List Char, charsHasSub n h = true ↔ ∃ p t, p ++ n ++ t = h := by
  intro h
  induction h with
  | nil =>
      simp only [charsHasSub, List.isEmpty_iff]
      constructor
      · rintro rfl; exact ⟨[], [], rfl⟩
      · rintro ⟨p, t, ht⟩
        simp only [List.append_eq_nil] at ht
        exact ht.1.2
  | cons c rest ih =>
      simp only [charsHasSub, Bool.or_eq_true, charsHasPre_iff, ih]
      constructor
      · rintro (⟨t, ht⟩ | ⟨p, t, ht⟩)
        · exact ⟨[], t, by simpa using ht⟩
        · exact ⟨c :: p, t, by simp [ht]⟩
      · rintro ⟨p, t, ht⟩
        cases p with
        | nil => exact Or.inl ⟨t, by simpa using ht⟩
        | cons x xs =>
            injection ht with h1 h2
            exact Or.inr ⟨xs, t, h2⟩

/-! ### Lemmas about the aggregation loop -/

theorem lookupA_skillMapAdd (m : List (String × List String)) (k v s : String) :
    lookupA (skillMapAdd m k v) s =
      if s = k then some ((lookupA m s).getD [] ++ [v]) else lookupA m s := by
  induction m with
  | nil =>
      by_cases hs : s = k <;> simp [skillMapAdd, lookupA, hs]
  | cons p rest ih =>
      obtain ⟨k0, l⟩ := p
      by_cases hk : k0 = k
      · subst hk
        by_cases hs : s = k0 <;> simp [skillMapAdd, lookupA, hs]
      · by_cases hs : s = k0
        · subst hs
          simp [skillMapAdd, lookupA, hk]
        · simp [skillMapAdd, lookupA, hk, hs, ih]

theorem lookupA_foldl_skillMapAdd (f : String → String) (s : String) :
    ∀ (skills : List String) (m : List (String × List String)),
      lookupA (skills.foldl (fun m skl => skillMapAdd m skl (f skl)) m) s =
        if skills.count s = 0 then lookupA m s
        else some ((lookupA m s).getD [] ++ List.replicate (skills.count s) (f s)) := by
  intro skills
  induction skills with
  | nil => intro m; simp
  | cons t rest ih =>
      intro m
      have hstep : (t :: rest).foldl (fun m skl => skillMapAdd m skl (f skl)) m
          = rest.foldl (fun m skl => skillMapAdd m skl (f skl)) (skillMapAdd m t (f t)) := rfl
      rw [hstep, ih]
      by_cases hts : t = s
      · subst hts
        have hcount : (t :: rest).count t = rest.count t + 1 := by
          simp [List.count_cons]
        have hlook : lookupA (skillMapAdd m t (f t)) t
            = some ((lookupA m t).getD [] ++ [f t]) := by
          simp [lookupA_skillMapAdd]
        rcases hn : rest.count t with _ | n
        · simp [hn, hlook, hcount, List.replicate_succ]
        · have : rest.count t ≠ 0 := by omega
          simp only [hn, hlook, hcount]
          simp [List.replicate_succ, List.append_assoc]
      · have hcount : (t :: rest).count s = rest.count s := by
          simp [List.count_cons, hts]
        have hlook : lookupA (skillMapAdd m t (f t)) s = lookupA m s := by
          simp [lookupA_skillMapAdd, Ne.symm hts]
        simp [hcount, hlook]

theorem lookupA_skill_map_aux (s : String) :
    ∀ (rs : List Response) (m : List (String × List String)),
      lookupA (rs.foldl
          (fun m r => r.skills_selected.foldl
            (fun m skl => skillMapAdd m skl (ratingOf r skl)) m) m) s =
        if ratingsSpec rs s = [] then lookupA m s
        else some ((lookupA m s).getD [] ++ ratingsSpec rs s) := by
  intro rs
  induction rs with
  | nil => intro m; simp [ratingsSpec]
  | cons r rest ih =>
      intro m
      have hstep : (r :: rest).foldl
          (fun m r => r.skills_selected.foldl
            (fun m skl => skillMapAdd m skl (ratingOf r skl)) m) m
          = rest.foldl
            (fun m r => r.skills_selected.foldl
              (fun m skl => skillMapAdd m skl (ratingOf r skl)) m)
            (r.skills_selected.foldl (fun m skl => skillMapAdd m skl (ratingOf r skl)) m) := rfl
      rw [hstep, ih]
      have hspec : ratingsSpec (r :: rest) s
          = List.replicate (r.skills_selected.count s) (ratingOf r s) ++ ratingsSpec rest s := by
        simp [ratingsSpec]
      have hinner := lookupA_foldl_skillMapAdd (fun skl => ratingOf r skl) s r.skills_selected m
      rcases hc : r.skills_selected.count s with _ | n
      · rw [hc] at hinner
        simp only [if_pos rfl] at hinner
        simp [hspec, hc, hinner]
      · have hcne : r.skills_selected.count s ≠ 0 := by omega
        rw [if_neg hcne] at hinner
        have hrep : List.replicate (r.skills_selected.count s) (ratingOf r s) ≠ [] := by
          rw [hc, List.replicate_succ]
          simp
        by_cases hrest : ratingsSpec rest s = []
        · simp [hspec, hrest, hinner, hrep]
        · simp [hspec, hrest, hinner, hrep, List.append_assoc]

/-- The contents of `skill_map` at key `s` are exactly the ratings described
by `ratingsSpec`. -/
theorem lookupA_skill_map (rs : List Response) (s : String) :
    lookupA (skill_map rs) s =
      if ratingsSpec rs s = [] then none else some (ratingsSpec rs s) := by
  have h := lookupA_skill_map_aux s rs []
  simpa [skill_map, lookupA] using h

theorem ratingsSpec_eq_nil_iff (rs : List Response) (s : String) :
    ratingsSpec rs s = [] ↔ ∀ r ∈ rs, s ∉ r.skills_selected := by
  induction rs with
  | nil => simp [ratingsSpec]
  | cons r rest ih =>
      have hcount : (List.replicate (r.skills_selected.count s) (ratingOf r s) = [])
          ↔ s ∉ r.skills_selected := by
        constructor
        · intro h
          have hz : r.skills_selected.count s = 0 := by
            rcases hn : r.skills_selected.count s with _ | n
            · rfl
            · rw [hn, List.replicate_succ] at h
              simp at h
          exact List.not_mem_of_count_eq_zero hz
        · intro h
          rw [List.count_eq_zero.mpr h]
          rfl
      simp only [ratingsSpec] at ih ⊢
      rw [List.flatMap_cons, List.append_eq_nil, hcount, ih]
      constructor
      · rintro ⟨h1, h2⟩ r' hr'
        rcases List.mem_cons.mp hr' with rfl | hr'
        · exact h1
        · exact h2 r' hr'
      · intro h
        exact ⟨h r (List.mem_cons_self r rest),
          fun r' hr' => h r' (List.mem_cons_of_mem r hr')⟩

theorem mem_keys_iff_lookupA_isSome {α : Type} (m : List (String × α)) (s : String) :
    s ∈ m.map Prod.fst ↔ (lookupA m s).isSome = true := by
  induction m with
  | nil => simp [lookupA]
  | cons p rest ih =>
      obtain ⟨k0, v0⟩ := p
      by_cases hs : s = k0
      · subst hs; simp [lookupA]
      · simp [lookupA, hs, ih]

theorem lookupA_eq_none_iff_not_mem_keys {α : Type} (m : List (String × α)) (s : String) :
    lookupA m s = none ↔ s ∉ m.map Prod.fst := by
  rw [mem_keys_iff_lookupA_isSome]
  cases lookupA m s <;> simp

theorem keys_skillMapAdd (m : List (String × List String)) (k v : String) :
    (skillMapAdd m k v).map Prod.fst =
      if (lookupA m k).isSome then m.map Prod.fst else m.map Prod.fst ++ [k] := by
  induction m with
  | nil => simp [skillMapAdd, lookupA]
  | cons p rest ih =>
      obtain ⟨k0, l⟩ := p
      by_cases hk : k0 = k
      · subst hk
        simp [skillMapAdd, lookupA]
      · simp [skillMapAdd, lookupA, hk, Ne.symm hk, ih]
        by_cases hsome : (lookupA rest k).isSome <;> simp [hsome]

theorem nodupKeys_skillMapAdd (m : List (String × List String)) (k v : String)
    (h : (m.map Prod.fst).Nodup) : ((skillMapAdd m k v).map Prod.fst).Nodup := by
  rw [keys_skillMapAdd]
  by_cases hsome : (lookupA m k).isSome
  · simpa [hsome] using h
  · have hnot : k ∉ m.map Prod.fst := by
      rw [← lookupA_eq_none_iff_not_mem_keys]
      cases hl : lookupA m k
      · rfl
      · rw [hl] at hsome; simp at hsome
    simp [hsome, List.nodup_append, h, hnot]

theorem nodupKeys_skill_map (rs : List Response) :
    ((skill_map rs).map Prod.fst).Nodup := by
  have hinner : ∀ (skills : List String) (g : String → String)
      (m : List (String × List String)), (m.map Prod.fst).Nodup →
      (((skills.foldl (fun m skl => skillMapAdd m skl (g skl)) m)).map Prod.fst).Nodup := by
    intro skills
    induction skills with
    | nil => intro g m h; exact h
    | cons t rest ih =>
        intro g m h
        exact ih g (skillMapAdd m t (g t)) (nodupKeys_skillMapAdd m t (g t) h)
  have houter : ∀ (rs : List Response) (m : List (String × List String)),
      (m.map Prod.fst).Nodup →
      ((rs.foldl (fun m r => r.skills_selected.foldl
        (fun m skl => skillMapAdd m skl (ratingOf r skl)) m) m).map Prod.fst).Nodup := by
    intro rs
    induction rs with
    | nil => intro m h; exact h
    | cons r rest ih =>
        intro m h
        exact ih _ (hinner r.skills_selected (fun skl => ratingOf r skl) m h)
  exact houter rs [] (by simp)

theorem lookupA_of_mem_nodup {α : Type} (m : List (String × α)) (s : String) (v : α)
    (hnd : (m.map Prod.fst).Nodup) (hmem : (s, v) ∈ m) : lookupA m s = some v := by
  induction m with
  | nil => simp at hmem
  | cons p rest ih =>
      obtain ⟨k0, v0⟩ := p
      rcases List.mem_cons.mp hmem with heq | hmem0
      · obtain ⟨h1, h2⟩ := Prod.mk.injEq .. ▸ heq
        subst h1; subst h2
        simp [lookupA]
      · rw [List.map_cons, List.nodup_cons] at hnd
        have hs : s ≠ k0 := by
          intro hcontr
          subst hcontr
          exact hnd.1 (List.mem_map.mpr ⟨(s, v), hmem0, rfl⟩)
        simp [lookupA, hs, ih hnd.2 hmem0]

theorem count3_eq_countP (l : List String) :
    l.count "High" + l.count "Medium" + l.count "Low" = l.countP goodRating := by
  induction l with
  | nil => simp
  | cons a t ih =>
      simp only [List.count_cons, List.countP_cons]
      by_cases h1 : a = "High"
      · subst h1; simp [goodRating]; omega
      · by_cases h2 : a = "Medium"
        · subst h2; simp [goodRating]; omega
        · by_cases h3 : a = "Low"
          · subst h3; simp [goodRating]; omega
          · simp [goodRating, h1, h2, h3]; omega

theorem length_ratingsSpec (rs : List Response) (s : String) :
    (ratingsSpec rs s).length = (rs.map (fun r => r.skills_selected.count s)).sum := by
  induction rs with
  | nil => simp [ratingsSpec]
  | cons r rest ih =>
      simp only [ratingsSpec, List.flatMap_cons, List.length_append,
        List.length_replicate, List.map_cons, List.sum_cons] at *
      omega

theorem sum_count_eq_countP_of_nodup (rs : List Response) (s : String)
    (hnd : ∀ r ∈ rs, r.skills_selected.Nodup) :
    (rs.map (fun r => r.skills_selected.count s)).sum
      = rs.countP (fun r => decide (s ∈ r.skills_selected)) := by
  induction rs with
  | nil => simp
  | cons r rest ih =>
      have hr : r.skills_selected.Nodup := hnd r (List.mem_cons_self r rest)
      have hrest := ih (fun r' hr' => hnd r' (List.mem_cons_of_mem r hr'))
      simp only [List.map_cons, List.sum_cons, List.countP_cons, hrest]
      by_cases hmem : s ∈ r.skills_selected
      · have : r.skills_selected.count s = 1 :=
          List.count_eq_one_of_mem hr hmem
        simp [this, hmem]
        omega
      · have : r.skills_selected.count s = 0 := List.count_eq_zero.mpr hmem
        simp [this, hmem]

theorem mem_of_lookupA {α : Type} (m : List (String × α)) (s : String) (v : α)
    (h : lookupA m s = some v) : (s, v) ∈ m := by
  induction m with
  | nil => simp [lookupA] at h
  | cons p rest ih =>
      obtain ⟨k0, v0⟩ := p
      by_cases hs : s = k0
      · subst hs
        have h0 : v0 = v := by simpa [lookupA] using h
        subst h0
        exact List.mem_cons_self _ _
      · simp only [lookupA, if_neg hs] at h
        exact List.mem_cons_of_mem _ (ih h)

/-- The keys of `skill_map` are exactly the skills selected in at least one
response. -/
theorem mem_keys_skill_map (rs : List Response) (key : String) :
    key ∈ (skill_map rs).map Prod.fst ↔ ∃ r ∈ rs, key ∈ r.skills_selected := by
  rw [mem_keys_iff_lookupA_isSome, lookupA_skill_map]
  by_cases h : ratingsSpec rs key = []
  · simp only [if_pos h, Option.isSome_none, Bool.false_eq_true, false_iff]
    rw [ratingsSpec_eq_nil_iff] at h
    push_neg
    exact h
  · simp only [if_neg h, Option.isSome_some, true_iff]
    rw [ratingsSpec_eq_nil_iff] at h
    push_neg at h
    exact h

/-- The suggestion loop returns the value of the first matching table entry,
else the generic list. -/
theorem suggestLoop_eq_first_match (pn : String) (table : List (String × List String)) :
    suggestLoop pn table =
      match table.find? (fun e => strContains (pyLower pn) (pyLower e.1)) with
      | some e => e.2
      | none => genericSkills := by
  induction table with
  | nil => rfl
  | cons e rest ih =>
      obtain ⟨k, v⟩ := e
      by_cases h : strContains (pyLower pn) (pyLower k)
      · simp [suggestLoop, h, List.find?_cons_of_pos]
      · rw [suggestLoop, if_neg (by simpa using h), ih,
          List.find?_cons_of_neg _ (by simpa using h)]

/-! ## Claims -/

/-- Claim C1: `ensure_data_structure` makes all three top-level keys present,
binds each previously missing key to an empty map, leaves present keys
unchanged, persists exactly once when anything was missing and not at all on
an already-well-formed document, and is idempotent. -/
theorem claim_C1_ensure_data_structure (d : Doc) :
    ((ensure_data_structure d).1.surveys ≠ none ∧
     (ensure_data_structure d).1.responses ≠ none ∧
     (ensure_data_structure d).1.assignments ≠ none) ∧
    (d.surveys = none → (ensure_data_structure d).1.surveys = some []) ∧
    (d.responses = none → (ensure_data_structure d).1.responses = some []) ∧
    (d.assignments = none → (ensure_data_structure d).1.assignments = some []) ∧
    (d.surveys ≠ none → (ensure_data_structure d).1.surveys = d.surveys) ∧
    (d.responses ≠ none → (ensure_data_structure d).1.responses = d.responses) ∧
    (d.assignments ≠ none → (ensure_data_structure d).1.assignments = d.assignments) ∧
    ((d.surveys = none ∨ d.responses = none ∨ d.assignments = none) →
      (ensure_data_structure d).2 = 1) ∧
    (d.surveys ≠ none ∧ d.responses ≠ none ∧ d.assignments ≠ none →
      ensure_data_structure d = (d, 0)) ∧
    ensure_data_structure (ensure_data_structure d).1 = ((ensure_data_structure d).1, 0) := by
  obtain ⟨os, og, oa⟩ := d
  cases os <;> cases og <;> cases oa <;> simp [ensure_data_structure]

/-- Witness for C1 at a document missing all three keys. -/
theorem claim_C1_witness :
    (ensure_data_structure { surveys := none, responses := none, assignments := none }).1.surveys
      = some [] ∧
    (ensure_data_structure { surveys := none, responses := none, assignments := none }).2 = 1 := by
  have h := claim_C1_ensure_data_structure
    { surveys := none, responses := none, assignments := none }
  exact ⟨h.2.1 rfl, h.2.2.2.2.2.2.2.1 (Or.inl rfl)⟩

/-- Claim C2 counterexample: on a missing (or unparsable) backing file,
`load_datafile` returns the empty dict, in which the top-level key
`surveys` is absent; it does not return the structurally complete document
with all three keys bound to empty maps that the claim describes. -/
theorem claim_C2_counterexample :
    (load_datafile .missing).surveys = none ∧
    (load_datafile .unparsable).surveys = none ∧
    load_datafile .missing ≠ completeEmptyDoc := by
  refine ⟨rfl, rfl, ?_⟩
  intro h
  have := congrArg Doc.surveys h
  simp [load_datafile, emptyRawDoc, completeEmptyDoc] at this

/-- Claim C2 (amended): `load_datafile` returns the persisted document when
the file exists and parses; when the file is missing or unparsable it returns
the empty document with none of the three top-level keys present, and the
structurally complete form arises only after `ensure_data_structure`. -/
theorem claim_C2_load_datafile :
    (∀ d : Doc, load_datafile (.parsed d) = d) ∧
    load_datafile .missing = emptyRawDoc ∧
    load_datafile .unparsable = emptyRawDoc ∧
    emptyRawDoc.surveys = none ∧
    emptyRawDoc.responses = none ∧
    emptyRawDoc.assignments = none ∧
    (ensure_data_structure (load_datafile .missing)).1 = completeEmptyDoc ∧
    (ensure_data_structure (load_datafile .unparsable)).1 = completeEmptyDoc := by
  refine ⟨fun d => rfl, rfl, rfl, rfl, rfl, rfl, rfl, rfl⟩

/-- Claim C9: deleting survey `sid` removes the entry keyed `sid` from all
three top-level maps and leaves every other key unchanged in all three. -/
theorem claim_C9_delete_survey (d : Doc) (sid : String) (d' : Doc)
    (h : deleteSurvey d sid = some d') :
    lookupA (d'.surveys.getD []) sid = none ∧
    lookupA (d'.responses.getD []) sid = none ∧
    lookupA (d'.assignments.getD []) sid = none ∧
    (∀ k, k ≠ sid → lookupA (d'.surveys.getD []) k = lookupA (d.surveys.getD []) k) ∧
    (∀ k, k ≠ sid → lookupA (d'.responses.getD []) k = lookupA (d.responses.getD []) k) ∧
    (∀ k, k ≠ sid → lookupA (d'.assignments.getD []) k = lookupA (d.assignments.getD []) k) := by
  obtain ⟨os, og, oa⟩ := d
  cases os with
  | none => simp [deleteSurvey] at h
  | some sm =>
      simp only [deleteSurvey, Option.some.injEq] at h
      subst h
      cases og <;> cases oa <;> simp [lookupA_eraseA, lookupA] <;> tauto

/-- Witness for C9 on a two-survey document: `s1` disappears from all three
maps and `s2` survives untouched. -/
theorem claim_C9_witness :
    ∃ d' : Doc, deleteSurvey docTwoSurveys "s1" = some d' ∧
      (lookupA (d'.surveys.getD []) "s1" = none ∧
       lookupA (d'.responses.getD []) "s1" = none ∧
       lookupA (d'.assignments.getD []) "s1" = none) ∧
      (lookupA (d'.surveys.getD []) "s2" = lookupA (docTwoSurveys.surveys.getD []) "s2" ∧
       lookupA (d'.responses.getD []) "s2" = lookupA (docTwoSurveys.responses.getD []) "s2" ∧
       lookupA (d'.assignments.getD []) "s2"
         = lookupA (docTwoSurveys.assignments.getD []) "s2") := by
  refine ⟨_, rfl, ?_, ?_⟩
  · have h := claim_C9_delete_survey docTwoSurveys "s1" _ rfl
    exact ⟨h.1, h.2.1, h.2.2.1⟩
  · have h := claim_C9_delete_survey docTwoSurveys "s1" _ rfl
    exact ⟨h.2.2.2.1 "s2" (by decide), h.2.2.2.2.1 "s2" (by decide),
      h.2.2.2.2.2 "s2" (by decide)⟩

/-- Claim C3: the aggregation records, for every response and every occurrence
of a skill in its selected list, the rating-map entry for that skill, with
`"Low"` as the default when the entry is absent; and every skill selected in
at least one response yields an output row carrying the counts of `"High"`,
`"Medium"` and `"Low"` and the total. -/
theorem claim_C3_skill_aggregation (rs : List Response) (s : String) :
    (∀ r : Response, ∀ skl v, lookupA r.skill_ratings skl = some v → ratingOf r skl = v) ∧
    (∀ r : Response, ∀ skl, lookupA r.skill_ratings skl = none → ratingOf r skl = "Low") ∧
    (lookupA (skill_map rs) s =
      if ratingsSpec rs s = [] then none else some (ratingsSpec rs s)) ∧
    ((∃ r ∈ rs, s ∈ r.skills_selected) →
      ∃ row ∈ agg_rows (skill_map rs),
        row.skill = s ∧
        row.high = (ratingsSpec rs s).count "High" ∧
        row.medium = (ratingsSpec rs s).count "Medium" ∧
        row.low = (ratingsSpec rs s).count "Low" ∧
        row.total = (ratingsSpec rs s).length) := by
  refine ⟨?_, ?_, lookupA_skill_map rs s, ?_⟩
  · intro r skl v h
    simp [ratingOf, h]
  · intro r skl h
    simp [ratingOf, h]
  · rintro ⟨r, hr, hmem⟩
    have hne : ratingsSpec rs s ≠ [] := by
      rw [Ne, ratingsSpec_eq_nil_iff]
      push_neg
      exact ⟨r, hr, hmem⟩
    have hlk : lookupA (skill_map rs) s = some (ratingsSpec rs s) := by
      rw [lookupA_skill_map, if_neg hne]
    have hmm : (s, ratingsSpec rs s) ∈ skill_map rs := mem_of_lookupA _ _ _ hlk
    exact ⟨_, List.mem_map.mpr ⟨(s, ratingsSpec rs s), hmm, rfl⟩,
      rfl, rfl, rfl, rfl, rfl⟩

/-- Witness for C3 at one response selecting SQL rated High. -/
theorem claim_C3_witness :
    ∃ row ∈ agg_rows (skill_map [respSqlHigh]),
      row.skill = "SQL" ∧
      row.high = (ratingsSpec [respSqlHigh] "SQL").count "High" ∧
      row.medium = (ratingsSpec [respSqlHigh] "SQL").count "Medium" ∧
      row.low = (ratingsSpec [respSqlHigh] "SQL").count "Low" ∧
      row.total = (ratingsSpec [respSqlHigh] "SQL").length :=
  (claim_C3_skill_aggregation [respSqlHigh] "SQL").2.2.2
    ⟨respSqlHigh, by decide, by decide⟩

/-- Claim C10 counterexample: a response whose hand-edited selected list
repeats skill X twice yields Total 2, while only one response contains X, so
Total is not the number of responses whose selected list contains the
skill. -/
theorem claim_C10_counterexample :
    agg_rows (skill_map [respDupX])
      = [{ skill := "X", high := 0, medium := 0, low := 2, total := 2 }] ∧
    List.countP (fun r => decide ("X" ∈ r.skills_selected)) [respDupX] = 1 ∧
    (2 : Nat) ≠ 1 := by
  refine ⟨by decide, by decide, by decide⟩

/-- Claim C10 (amended): per aggregation row, Total is the number of
occurrences of the skill across the selected lists (the number of responses
containing it when no response repeats a skill), High + Medium + Low is at
most Total, and equality holds exactly when every recorded rating is one of
the three values — an out-of-range rating lands in no bucket, silently. -/
theorem claim_C10_agg_invariant (rs : List Response) (s : String) (row : AggRow)
    (hrow : row ∈ agg_rows (skill_map rs)) (hs : row.skill = s) :
    row.total = (rs.map (fun r => r.skills_selected.count s)).sum ∧
    row.high + row.medium + row.low ≤ row.total ∧
    (row.high + row.medium + row.low = row.total ↔
      ∀ rating ∈ ratingsSpec rs s,
        rating = "High" ∨ rating = "Medium" ∨ rating = "Low") ∧
    ((∀ r ∈ rs, r.skills_selected.Nodup) →
      row.total = rs.countP (fun r => decide (s ∈ r.skills_selected))) := by
  obtain ⟨p, hp, hrow⟩ := List.mem_map.mp hrow
  obtain ⟨s0, l⟩ := p
  have hskl : s0 = s := by
    have := congrArg AggRow.skill hrow
    simp [agg_rows] at this
    rw [← this] at hs
    exact hs.symm ▸ rfl
  subst hskl
  have hlk : lookupA (skill_map rs) s0 = some l :=
    lookupA_of_mem_nodup _ _ _ (nodupKeys_skill_map rs) hp
  rw [lookupA_skill_map] at hlk
  have hl : l = ratingsSpec rs s0 := by
    by_cases hne : ratingsSpec rs s0 = []
    · rw [if_pos hne] at hlk; cases hlk
    · rw [if_neg hne] at hlk
      exact (Option.some.injEq .. ▸ hlk).symm
  subst hrow
  simp only [agg_rows]
  have hcount := count3_eq_countP l
  refine ⟨?_, ?_, ?_, ?_⟩
  · rw [hl, length_ratingsSpec]
  · rw [hcount]
    exact List.countP_le_length _
  · rw [hcount, List.countP_eq_length, hl]
    constructor
    · intro h rating hin
      have := h rating hin
      simpa [goodRating, or_assoc] using this
    · intro h rating hin
      simpa [goodRating, or_assoc] using h rating hin
  · intro hnd
    rw [hl, length_ratingsSpec, sum_count_eq_countP_of_nodup rs s0 hnd]

/-- Witness for C10 at one response selecting SQL rated High. -/
theorem claim_C10_witness :
    ({ skill := "SQL", high := 1, medium := 0, low := 0, total := 1 } : AggRow).total
        = ([respSqlHigh].map (fun r => r.skills_selected.count "SQL")).sum ∧
    (1 : Nat) + 0 + 0 ≤ 1 ∧
    ((1 : Nat) + 0 + 0 = 1 ↔
      ∀ rating ∈ ratingsSpec [respSqlHigh] "SQL",
        rating = "High" ∨ rating = "Medium" ∨ rating = "Low") ∧
    ((∀ r ∈ [respSqlHigh], r.skills_selected.Nodup) →
      ({ skill := "SQL", high := 1, medium := 0, low := 0, total := 1 } : AggRow).total
        = List.countP (fun r => decide ("SQL" ∈ r.skills_selected)) [respSqlHigh]) :=
  claim_C10_agg_invariant [respSqlHigh] "SQL"
    { skill := "SQL", high := 1, medium := 0, low := 0, total := 1 }
    (by decide) rfl

/-- Claim C4 counterexample: the missing-skill set of the SQL-and-ETL survey
with no responses admits two different duplicate-free enumerations, so the
output of `list(missing)` — constrained only to enumerate the set, CPython
set iteration order being unspecified — is not a deterministic list, and in
particular not always sorted. -/
theorem claim_C4_counterexample :
    IsSetEnumeration (missingSkills surveySqlEtl []) ["sql", "etl"] ∧
    IsSetEnumeration (missingSkills surveySqlEtl []) ["etl", "sql"] ∧
    (["sql", "etl"] : List String) ≠ ["etl", "sql"] :=
  ⟨⟨by decide, by decide⟩, ⟨by decide, by decide⟩, by decide⟩

/-- Claim C4 (amended): the missing-skill set equals the lower-cased survey
skills minus the lower-cased skills selected in any response (the keys of the
aggregation), and the enumerated output list is deterministic only up to
permutation: any two valid enumerations of the set are permutations of each
other, their order being unspecified. -/
theorem claim_C4_gap_analysis (survey : Survey) (rs : List Response) :
    (∀ s : String, s ∈ missingSkills survey rs ↔
      ((∃ t ∈ survey.skills, pyLower t = s) ∧
        ¬ ∃ r ∈ rs, ∃ t ∈ r.skills_selected, pyLower t = s)) ∧
    (∀ l1 l2 : List String,
      IsSetEnumeration (missingSkills survey rs) l1 →
      IsSetEnumeration (missingSkills survey rs) l2 → l1.Perm l2) := by
  constructor
  · intro s
    have havail : s ∈ availableSkills rs ↔
        ∃ r ∈ rs, ∃ t ∈ r.skills_selected, pyLower t = s := by
      rw [availableSkills, List.mem_toFinset, List.mem_map]
      constructor
      · rintro ⟨p, hp, rfl⟩
        have hkey : p.1 ∈ (skill_map rs).map Prod.fst := List.mem_map.mpr ⟨p, hp, rfl⟩
        obtain ⟨r, hr, hmem⟩ := (mem_keys_skill_map rs p.1).mp hkey
        exact ⟨r, hr, p.1, hmem, rfl⟩
      · rintro ⟨r, hr, t, ht, rfl⟩
        have hkey : t ∈ (skill_map rs).map Prod.fst :=
          (mem_keys_skill_map rs t).mpr ⟨r, hr, ht⟩
        obtain ⟨p, hp, hfst⟩ := List.mem_map.mp hkey
        exact ⟨p, hp, by rw [hfst]⟩
    rw [missingSkills, Finset.mem_sdiff, requiredSkills, List.mem_toFinset,
      List.mem_map, havail]
  · rintro l1 l2 ⟨h1n, h1f⟩ ⟨h2n, h2f⟩
    exact List.perm_of_nodup_nodup_toFinset_eq h1n h2n (h1f.trans h2f.symm)

/-- Witness for C4 on concrete data: the membership characterisation at the
gap-analysis example of the spec, and the permutation guarantee for two
enumerations. -/
theorem claim_C4_witness :
    ("etl" ∈ missingSkills surveySqlEtl [respSqlHigh] ↔
      ((∃ t ∈ surveySqlEtl.skills, pyLower t = "etl") ∧
        ¬ ∃ r ∈ [respSqlHigh], ∃ t ∈ r.skills_selected, pyLower t = "etl")) ∧
    List.Perm ["sql", "etl"] ["etl", "sql"] :=
  ⟨(claim_C4_gap_analysis surveySqlEtl [respSqlHigh]).1 "etl",
   (claim_C4_gap_analysis surveySqlEtl []).2 ["sql", "etl"] ["etl", "sql"]
     ⟨by decide, by decide⟩ ⟨by decide, by decide⟩⟩

/-- Claim C5: `match_resumes_for_skill` returns exactly the resumes whose
full text contains the skill as a case-insensitive substring, and the
dashboard computes and uses the token-extraction fallback for a skill exactly
when that skill's direct-match list is empty, the fallback matching resumes
whose extracted lower-cased tokens contain the skill. -/
theorem claim_C5_resume_matching (skill : String) (resumes : List (String × String)) :
    (∀ fname, fname ∈ match_resumes_for_skill skill resumes ↔
      ∃ text, (fname, text) ∈ resumes ∧
        ∃ p t, p ++ (pyLower skill).data ++ t = (pyLower text).data) ∧
    ((resumeMatchingForSkill skill resumes).1 = match_resumes_for_skill skill resumes) ∧
    ((resumeMatchingForSkill skill resumes).2 = none ↔
      match_resumes_for_skill skill resumes ≠ []) ∧
    (∀ fb, (resumeMatchingForSkill skill resumes).2 = some fb →
      (match_resumes_for_skill skill resumes = [] ∧
        fb = fallbackSuggestions skill resumes ∧
        ∀ fname, fname ∈ fb ↔
          ∃ text, (fname, text) ∈ resumes ∧
            skill ∈ (extract_skills_from_text text).map pyLower)) := by
  refine ⟨?_, ?_, ?_, ?_⟩
  · intro fname
    simp only [match_resumes_for_skill, List.mem_map, List.mem_filter, strContains]
    constructor
    · rintro ⟨⟨f, text⟩, ⟨hmem, hP⟩, rfl⟩
      exact ⟨text, hmem, (charsHasSub_iff _ _).mp hP⟩
    · rintro ⟨text, hmem, hsub⟩
      exact ⟨(fname, text), ⟨hmem, (charsHasSub_iff _ _).mpr hsub⟩, rfl⟩
  · by_cases h : (match_resumes_for_skill skill resumes).isEmpty <;>
      simp [resumeMatchingForSkill, h]
  · by_cases h : (match_resumes_for_skill skill resumes).isEmpty
    · simp [resumeMatchingForSkill, h, List.isEmpty_iff.mp h]
    · simp only [resumeMatchingForSkill, h, Bool.false_eq_true, if_false]
      simp only [true_iff]
      intro hc
      rw [hc] at h
      exact h rfl
  · intro fb hfb
    by_cases h : (match_resumes_for_skill skill resumes).isEmpty
    · have hnil : match_resumes_for_skill skill resumes = [] := List.isEmpty_iff.mp h
      have hfb0 : fb = fallbackSuggestions skill resumes := by
        simp [resumeMatchingForSkill, h] at hfb
        exact hfb.symm
      subst hfb0
      refine ⟨hnil, rfl, ?_⟩
      intro fname
      simp only [fallbackSuggestions, List.mem_map, List.mem_filter, decide_eq_true_eq]
      constructor
      · rintro ⟨⟨f, text⟩, ⟨hmem, hQ⟩, rfl⟩
        exact ⟨text, hmem, hQ⟩
      · rintro ⟨text, hmem, hQ⟩
        exact ⟨(fname, text), ⟨hmem, hQ⟩, rfl⟩
    · simp [resumeMatchingForSkill, h] at hfb

/-- Witness for C5: with one resume lacking the skill entirely, the direct
list is empty and the fallback is computed (and also empty). -/
theorem claim_C5_witness :
    match_resumes_for_skill "etl" [("a.txt", "nothing here")] = [] ∧
    ([] : List String) = fallbackSuggestions "etl" [("a.txt", "nothing here")] ∧
    (∀ fname, fname ∈ ([] : List String) ↔
      ∃ text, (fname, text) ∈ [("a.txt", "nothing here")] ∧
        "etl" ∈ (extract_skills_from_text text).map pyLower) :=
  (claim_C5_resume_matching "etl" [("a.txt", "nothing here")]).2.2.2 [] (by decide)

/-- Claim C6: when some line of the text contains "skills:" case-insensitively,
the extractor returns the first such line split after its first colon, split
on commas, whitespace-trimmed and with empty entries dropped, in order — the
heuristic fallback is not used; and the given example extracts exactly
Excel, SAP, Communication. -/
theorem claim_C6_extract_declared (text ln : String)
    (h : (pySplitLines text).find? (fun l => strContains (pyLower l) "skills:") = some ln) :
    (strContains (pyLower ln) "skills:" = true ∧
      extract_skills_from_text text =
        (splitComma ((afterFirstColon ln.data).getD [])).filterMap
          (fun s => if pyStripWS s = "" then none else some (pyStripWS s))) ∧
    extract_skills_from_text "Skills: Excel, SAP, Communication"
      = ["Excel", "SAP", "Communication"] := by
  refine ⟨⟨?_, ?_⟩, by decide⟩
  · have h2 := List.find?_some h
    simpa using h2
  · simp [extract_skills_from_text, h, declaredSkills]

/-- Witness for C6 at the one-line example text. -/
theorem claim_C6_witness :
    extract_skills_from_text "Skills: Excel, SAP, Communication" =
      List.filterMap (fun s => if pyStripWS s = "" then none else some (pyStripWS s))
        (splitComma ((afterFirstColon ("Skills: Excel, SAP, Communication").data).getD [])) :=
  ((claim_C6_extract_declared "Skills: Excel, SAP, Communication"
      "Skills: Excel, SAP, Communication" (by decide)).1).2

/-- Claim C7: the suggestion is the skill list of the first table entry whose
key occurs case-insensitively inside the process name, the fixed generic list
when no key matches; "Order to Cash" yields the Order-to-Cash list and an
unmatched name yields the generic list. -/
theorem claim_C7_suggest_skills (process_name : String) :
    (suggest_skills_for_process process_name =
      match suggestionTable.find?
          (fun e => strContains (pyLower process_name) (pyLower e.1)) with
      | some e => e.2
      | none => genericSkills) ∧
    suggest_skills_for_process "Order to Cash"
      = ["Order Processing", "Invoicing", "Accounts Receivable", "SAP"] ∧
    suggest_skills_for_process "Quantum Basket Weaving" = genericSkills :=
  ⟨suggestLoop_eq_first_match process_name suggestionTable, by decide, by decide⟩

/-- Claim C8 counterexample: `generate_survey_id` is drawn independently of
the document and the create handler performs no collision check — creating a
survey under an id that already exists overwrites the previous surveys entry,
so creation can overwrite. -/
theorem claim_C8_counterexample :
    lookupA (docTwoSurveys.surveys.getD []) "s1" = some surveySqlEtl ∧
    lookupA ((createSurvey docTwoSurveys "s1" surveyOther []).surveys.getD []) "s1"
      = some surveyOther ∧
    surveyOther ≠ surveySqlEtl :=
  ⟨by decide, by decide, by decide⟩

/-- Claim C8 (amended): the generated id is the first 8 characters of the
UUID string (8 characters whenever the UUID rendering has at least 8), and
the create handler writes the survey and assignment entries under the
generated id unconditionally — overwriting any existing entry with that id —
while leaving all other keys and the responses map unchanged. -/
theorem claim_C8_create_survey (d : Doc) (sid : String) (sv : Survey)
    (emails : List String) :
    (∀ uuidStr : String, 8 ≤ uuidStr.data.length →
      (generate_survey_id uuidStr).data.length = 8) ∧
    lookupA ((createSurvey d sid sv emails).surveys.getD []) sid = some sv ∧
    lookupA ((createSurvey d sid sv emails).assignments.getD []) sid = some emails ∧
    (∀ k, k ≠ sid →
      lookupA ((createSurvey d sid sv emails).surveys.getD []) k
        = lookupA (d.surveys.getD []) k) ∧
    (∀ k, k ≠ sid →
      lookupA ((createSurvey d sid sv emails).assignments.getD []) k
        = lookupA (d.assignments.getD []) k) ∧
    (createSurvey d sid sv emails).responses = d.responses := by
  refine ⟨?_, ?_, ?_, ?_, ?_, rfl⟩
  · intro u hu
    simp only [generate_survey_id, List.length_take]
    omega
  · simp [createSurvey, lookupA_insertA]
  · simp [createSurvey, lookupA_insertA]
  · intro k hk
    simp [createSurvey, lookupA_insertA, hk]
  · intro k hk
    simp [createSurvey, lookupA_insertA, hk]

/-- Witness for C8 with a fresh id on the two-survey document. -/
theorem claim_C8_witness :
    (generate_survey_id "0a1b2c3d-4e5f-6789-abcd-ef0123456789").data.length = 8 ∧
    lookupA ((createSurvey docTwoSurveys "zzzz9999" surveyOther ["u@x.com"]).surveys.getD [])
      "zzzz9999" = some surveyOther ∧
    lookupA ((createSurvey docTwoSurveys "zzzz9999" surveyOther ["u@x.com"]).surveys.getD [])
      "s1" = lookupA (docTwoSurveys.surveys.getD []) "s1" := by
  have h := claim_C8_create_survey docTwoSurveys "zzzz9999" surveyOther ["u@x.com"]
  exact ⟨h.1 "0a1b2c3d-4e5f-6789-abcd-ef0123456789" (by decide),
    h.2.1, h.2.2.2.1 "s1" (by decide)⟩

end SkillSurvey
